import Mathlib

/-!
# Verification of the `idle-until-urgent` IdleQueue

Shallow embedding of `src/IdleQueue.ts` and `src/idleCbWithPolyfill.ts`.

Modelling conventions:
* JS numbers that hold times and `minTaskTime` values are modelled as `Int`.
* A task is identified by a `Nat`; what happens when a task body is invoked
  is supplied externally by an oracle `exec : Task → State → Option String`
  (`none` = the body returns normally, `some e` = the body throws `e`,
  which `runTasks` catches and reports via `console.error`).
* A deadline object is time-dependent: its `timeRemaining()` method can
  return a different value at each call.  The drain loop calls it once per
  loop-condition check, when `tasksProcessed = i`, so a deadline is embedded
  as `Option (Nat → Int)`: the value the `i`-th call returns.
* The host environment (browser detection, `document.visibilityState`,
  `now()`) is an explicit `Env` argument.
* The effects of `requestIdleCallback` / `cancelIdleCallback` /
  `queueMicrotask` are recorded in a `World`: the list of outstanding idle
  callback handles and the number of queued microtask callbacks.
* `addEventListener` / `removeEventListener` match listeners by function
  identity, embedded as `ListenerFn` tags: the constructor registers an
  anonymous arrow function for `visibilitychange` (tag
  `visibilityChangeArrow`) while `destroy` passes the bound
  `runTasksImmediately` method (tag `runTasksImmediatelyBound`).
-/

namespace IdleUntilUrgent

/-- `document.visibilityState` values, from the `State` interface. -/
inductive VisibilityState where
  | hidden
  | visible
  | prerender
  | unloaded
deriving DecidableEq, Repr

/-- `interface State { time: number; visibilityState: ... }`. -/
structure State where
  time : Int
  visibilityState : VisibilityState
deriving DecidableEq, Repr

/-- A task body is identified by a `Nat`; its behaviour is an external oracle. -/
abbrev Task := Nat

/-- `interface TaskQueueItem { state; task; minTaskTime }`. -/
structure TaskQueueItem where
  state : State
  task : Task
  minTaskTime : Int
deriving DecidableEq, Repr

/-- `const DEFAULT_MIN_TASK_TIME = 0`. -/
def DEFAULT_MIN_TASK_TIME : Int := 0

/-- `const MAX_TASKS_PER_ITERATION = 20`. -/
def MAX_TASKS_PER_ITERATION : Nat := 20

/-- JS `x || d` on an optional number: `undefined` and `0` are falsy. -/
def jsOr (x : Option Int) (d : Int) : Int :=
  match x with
  | none => d
  | some v => if v = 0 then d else v

/-- JS truthiness of a nullable number (`null` and `0` are falsy). -/
def jsTruthy (x : Option Int) : Bool :=
  match x with
  | none => false
  | some v => v != 0

/-- `shouldYield(deadline?, minTaskTime?)`:
`!!(deadline && deadline.timeRemaining() <= (minTaskTime || 0))`.
The first argument is the value `deadline.timeRemaining()` returns at this
call (`none` when no deadline object was supplied). -/
def shouldYield (timeRemaining : Option Int) (minTaskTime : Option Int) : Bool :=
  match timeRemaining with
  | none => false
  | some t => decide (t ≤ jsOr minTaskTime 0)

/-! ## The `IdleDeadline` shim of `idleCbWithPolyfill.ts` -/

/-- `timeRemaining(): number { return Math.max(0, 50 - (now() - this.initTime)); }`
from the `IdleDeadline` shim class, with the construction-time clock value
`initTime` and the call-time clock value `nowT` passed explicitly. -/
def IdleDeadlineShim.timeRemaining (initTime : Int) (nowT : Int) : Int :=
  max 0 (50 - (nowT - initTime))

/-- `get didTimeout(): boolean { return false; }` from the `IdleDeadline` shim. -/
def IdleDeadlineShim.didTimeout : Bool := false

/-! ## Host environment and effect world -/

/-- The host facts `IdleQueue` consults: `isBrowser`, `isSafari`,
`document.visibilityState`, and the current `now()` clock value. -/
structure Env where
  isBrowser : Bool
  isSafari : Bool
  visibilityState : VisibilityState
  time : Int
deriving DecidableEq, Repr

/-- Scheduling effects observable outside the queue object: which
`requestIdleCallback` handles are still outstanding, how many microtask
callbacks have been queued, and the next fresh handle (handles start at 1,
so a handle is never the falsy number 0). -/
structure World where
  outstandingIdleCallbacks : List Int
  queuedMicrotasks : Nat
  nextHandle : Int
deriving DecidableEq, Repr

/-- The world before any scheduling request. -/
def World.init : World :=
  { outstandingIdleCallbacks := [], queuedMicrotasks := 0, nextHandle := 1 }

/-- `rIC(callback)`: registers an idle callback, returning a fresh handle. -/
def rIC (w : World) : Int × World :=
  (w.nextHandle,
    { w with
      outstandingIdleCallbacks := w.outstandingIdleCallbacks ++ [w.nextHandle]
      nextHandle := w.nextHandle + 1 })

/-- `cIC(handle)`: cancels the idle callback registered under `handle`. -/
def cIC (w : World) (h : Int) : World :=
  { w with
    outstandingIdleCallbacks := w.outstandingIdleCallbacks.filter (fun x => x != h) }

/-! ## The `IdleQueue` instance state -/

/-- The private fields of an `IdleQueue` instance. -/
structure IdleQ where
  idleCallbackHandle : Option Int
  taskQueue : List TaskQueueItem
  isProcessing : Bool
  state : Option State
  defaultMinTaskTime : Int
  maxTasksPerIteration : Nat
  ensureTasksRun : Bool
  queueMicrotaskInit : Bool
deriving DecidableEq, Repr

/-- The field state established by the `IdleQueue` constructor (the
listener registrations it performs are modelled separately below). -/
def IdleQueue.new (ensureTasksRun : Bool) (defaultMinTaskTime : Int)
    (maxTasksPerIteration : Nat) : IdleQ :=
  { idleCallbackHandle := none
    taskQueue := []
    isProcessing := false
    state := none
    defaultMinTaskTime := defaultMinTaskTime
    maxTasksPerIteration := maxTasksPerIteration
    ensureTasksRun := ensureTasksRun
    queueMicrotaskInit := false }

/-- `hasPendingTasks(): boolean { return this.taskQueue.length > 0; }` -/
def hasPendingTasks (q : IdleQ) : Bool :=
  decide (0 < q.taskQueue.length)

/-- `getState(): State | null { return this.state; }` -/
def getState (q : IdleQ) : Option State :=
  q.state

/-- `cancelScheduledRun()`: `if (this.idleCallbackHandle) cIC(handle);
this.idleCallbackHandle = null;` -/
def cancelScheduledRun (q : IdleQ) (w : World) : IdleQ × World :=
  let w1 :=
    match q.idleCallbackHandle with
    | some h => if h != 0 then cIC w h else w
    | none => w
  ({ q with idleCallbackHandle := none }, w1)

/-- `scheduleTasksToRun()`: hidden + `ensureTasksRun` queues a microtask
(unconditionally; only the creation of the `queueMicrotask` function is
guarded by `||=`); otherwise `this.idleCallbackHandle ||= rIC(...)`. -/
def scheduleTasksToRun (env : Env) (q : IdleQ) (w : World) : IdleQ × World :=
  if env.isBrowser && q.ensureTasksRun && (env.visibilityState == .hidden) then
    ({ q with queueMicrotaskInit := true },
      { w with queuedMicrotasks := w.queuedMicrotasks + 1 })
  else
    if jsTruthy q.idleCallbackHandle then
      (q, w)
    else
      let hw := rIC w
      ({ q with idleCallbackHandle := some hw.1 }, hw.2)

/-- `handleTask(task, handleTaskQueueItem, options?)`: stamps the current
`State`, computes `minTaskTime = Math.max(0, (options && options.minTaskTime)
|| this.defaultMinTaskTime)`, inserts the item with the supplied insertion
function, then invokes `scheduleTasksToRun`. -/
def handleTask (env : Env) (task : Task) (optsMinTaskTime : Option Int)
    (ins : List TaskQueueItem → TaskQueueItem → List TaskQueueItem)
    (q : IdleQ) (w : World) : IdleQ × World :=
  let st : State :=
    { time := env.time
      visibilityState := if env.isBrowser then env.visibilityState else .visible }
  let minT : Int := max 0 (jsOr optsMinTaskTime q.defaultMinTaskTime)
  let q1 := { q with
    taskQueue := ins q.taskQueue { state := st, task := task, minTaskTime := minT } }
  scheduleTasksToRun env q1 w

/-- `pushTask`: `handleTask` with `Array.prototype.push` (append at the end). -/
def pushTask (env : Env) (task : Task) (optsMinTaskTime : Option Int)
    (q : IdleQ) (w : World) : IdleQ × World :=
  handleTask env task optsMinTaskTime (fun l it => l ++ [it]) q w

/-- `unshiftTask`: `handleTask` with `Array.prototype.unshift` (prepend at
the front). -/
def unshiftTask (env : Env) (task : Task) (optsMinTaskTime : Option Int)
    (q : IdleQ) (w : World) : IdleQ × World :=
  handleTask env task optsMinTaskTime (fun l it => it :: l) q w

/-! ## The drain loop -/

/-- One record per task invocation performed by the drain loop, together
with the value of the `state` field observable around the invocation:
`stateBeforeInvoke` is `this.state` when the loop-condition check passed,
`stateDuringRun` is `this.state` while the task body runs, and
`stateAfterRun` is `this.state` right after `this.state = null`. -/
structure ExecRecord where
  stateBeforeInvoke : Option State
  item : TaskQueueItem
  stateDuringRun : Option State
  stateAfterRun : Option State
deriving DecidableEq, Repr

/-- Result of the `while` loop of `runTasks`. -/
structure LoopResult where
  log : List ExecRecord
  remaining : List TaskQueueItem
  finalState : Option State
  errors : List String
deriving DecidableEq, Repr

/-- The `while` loop of `runTasks`: while the queue is non-empty,
`tasksProcessed < maxTasksPerIteration` and
`!shouldYield(deadline, this.taskQueue[0].minTaskTime)`, shift the front
item, set `this.state`, invoke the task (catching any thrown error into the
`console.error` log), reset `this.state = null` and count the task. -/
def runTasksLoop (exec : Task → State → Option String)
    (deadline : Option (Nat → Int)) (maxT : Nat) :
    Nat → Option State → List TaskQueueItem → LoopResult
  | _, curState, [] => ⟨[], [], curState, []⟩
  | processed, curState, item :: rest =>
    if processed < maxT
        && !shouldYield (deadline.map (fun d => d processed)) (some item.minTaskTime) then
      let err := exec item.task item.state
      let r := runTasksLoop exec deadline maxT (processed + 1) none rest
      ⟨⟨curState, item, some item.state, none⟩ :: r.log,
        r.remaining, r.finalState, err.toList ++ r.errors⟩
    else
      ⟨[], item :: rest, curState, []⟩

/-- Result of one `runTasks` invocation. -/
structure RunResult where
  queue : IdleQ
  world : World
  log : List ExecRecord
  errors : List String
deriving DecidableEq, Repr

/-- `runTasks(deadline?)`: cancel any scheduled run, and unless a drain is
already in progress, set `isProcessing`, run the loop, clear
`isProcessing`, and reschedule if tasks remain. -/
def runTasks (env : Env) (exec : Task → State → Option String)
    (deadline : Option (Nat → Int)) (q : IdleQ) (w : World) : RunResult :=
  let c := cancelScheduledRun q w
  let q0 := c.1
  let w0 := c.2
  if !q0.isProcessing then
    let r := runTasksLoop exec deadline q0.maxTasksPerIteration 0 q0.state q0.taskQueue
    let q1 := { q0 with taskQueue := r.remaining, state := r.finalState, isProcessing := false }
    if hasPendingTasks q1 then
      let s := scheduleTasksToRun env q1 w0
      ⟨s.1, s.2, r.log, r.errors⟩
    else
      ⟨q1, w0, r.log, r.errors⟩
  else
    ⟨q0, w0, [], []⟩

/-- `runTasksImmediately()`: `this.runTasks()` with no deadline. -/
def runTasksImmediately (env : Env) (exec : Task → State → Option String)
    (q : IdleQ) (w : World) : RunResult :=
  runTasks env exec none q w

/-- `clearPendingTasks()`: `this.taskQueue = []; this.cancelScheduledRun();` -/
def clearPendingTasks (q : IdleQ) (w : World) : IdleQ × World :=
  cancelScheduledRun { q with taskQueue := [] } w

/-! ## Lifecycle event listeners -/

/-- Event types the constructor subscribes to. -/
inductive EvType where
  | visibilitychange
  | beforeunload
deriving DecidableEq, Repr

/-- Function identities passed to `addEventListener`/`removeEventListener`:
the anonymous arrow `() => { if (document.visibilityState === "hidden")
this.runTasksImmediately(); }` created in the constructor, and the bound
`this.runTasksImmediately` method. -/
inductive ListenerFn where
  | visibilityChangeArrow
  | runTasksImmediatelyBound
deriving DecidableEq, Repr

/-- The set of attached listeners (all registered with `capture = true`). -/
abbrev Listeners := List (EvType × ListenerFn)

/-- `addEventListener(type, fn, true)`. -/
def addEventListener (ls : Listeners) (t : EvType) (f : ListenerFn) : Listeners :=
  ls ++ [(t, f)]

/-- `removeEventListener(type, fn, true)`: detaches the listener whose
type and function identity both match; no-op when none matches. -/
def removeEventListener (ls : Listeners) (t : EvType) (f : ListenerFn) : Listeners :=
  ls.filter (fun p => !(p == (t, f)))

/-- The listener registrations the `IdleQueue` constructor performs:
`if (isBrowser && this.ensureTasksRun)` add the anonymous arrow for
`visibilitychange`, and on Safari also add the bound `runTasksImmediately`
for `beforeunload`. -/
def constructorListeners (isBrowser isSafari ensureTasksRun : Bool)
    (ls : Listeners) : Listeners :=
  if isBrowser && ensureTasksRun then
    let ls1 := addEventListener ls .visibilitychange .visibilityChangeArrow
    if isSafari then addEventListener ls1 .beforeunload .runTasksImmediatelyBound
    else ls1
  else ls

/-- The listener removals `destroy()` performs:
`removeEventListener("visibilitychange", this.runTasksImmediately, true)`
and on Safari `removeEventListener("beforeunload",
this.runTasksImmediately, true)`. -/
def destroyListeners (isBrowser isSafari ensureTasksRun : Bool)
    (ls : Listeners) : Listeners :=
  if isBrowser && ensureTasksRun then
    let ls1 := removeEventListener ls .visibilitychange .runTasksImmediatelyBound
    if isSafari then removeEventListener ls1 .beforeunload .runTasksImmediatelyBound
    else ls1
  else ls

/-! ## Sequences of enqueue operations -/

/-- An enqueue operation: `pushTask` or `unshiftTask` with an optional
`minTaskTime` option. -/
inductive EnqOp where
  | push (task : Task) (minTaskTime : Option Int)
  | unshift (task : Task) (minTaskTime : Option Int)
deriving DecidableEq, Repr

/-- Apply one enqueue operation under the `Env` observed at that moment. -/
def applyEnqOp (p : Env × EnqOp) (s : IdleQ × World) : IdleQ × World :=
  match p.2 with
  | .push t m => pushTask p.1 t m s.1 s.2
  | .unshift t m => unshiftTask p.1 t m s.1 s.2

/-- Apply a sequence of enqueue operations in order. -/
def applyEnqOps : List (Env × EnqOp) → IdleQ × World → IdleQ × World
  | [], s => s
  | p :: ops, s => applyEnqOps ops (applyEnqOp p s)

/-- The tasks unshifted by a sequence of operations, in operation order. -/
def unshiftedTasks : List (Env × EnqOp) → List Task
  | [] => []
  | (_, .unshift t _) :: ops => t :: unshiftedTasks ops
  | (_, .push _ _) :: ops => unshiftedTasks ops

/-- The tasks pushed by a sequence of operations, in operation order. -/
def pushedTasks : List (Env × EnqOp) → List Task
  | [] => []
  | (_, .push t _) :: ops => t :: pushedTasks ops
  | (_, .unshift _ _) :: ops => pushedTasks ops

/-! ## Basic lemmas about the embedded operations -/

@[simp] lemma IdleQueue.new_taskQueue (ensure : Bool) (dflt : Int) (maxT : Nat) :
    (IdleQueue.new ensure dflt maxT).taskQueue = [] := rfl

/-- `x || 0` on a number-or-undefined is just "default to 0". -/
lemma jsOr_zero_eq_getD (m : Option Int) : jsOr m 0 = m.getD 0 := by
  cases m with
  | none => rfl
  | some v =>
    by_cases hv : v = 0 <;> simp [jsOr, hv]

@[simp] lemma cancelScheduledRun_fst (q : IdleQ) (w : World) :
    (cancelScheduledRun q w).1 = { q with idleCallbackHandle := none } := rfl

@[simp] lemma scheduleTasksToRun_fst_taskQueue (env : Env) (q : IdleQ) (w : World) :
    (scheduleTasksToRun env q w).1.taskQueue = q.taskQueue := by
  unfold scheduleTasksToRun
  split
  · rfl
  · split <;> rfl

@[simp] lemma scheduleTasksToRun_fst_isProcessing (env : Env) (q : IdleQ) (w : World) :
    (scheduleTasksToRun env q w).1.isProcessing = q.isProcessing := by
  unfold scheduleTasksToRun
  split
  · rfl
  · split <;> rfl

@[simp] lemma scheduleTasksToRun_fst_state (env : Env) (q : IdleQ) (w : World) :
    (scheduleTasksToRun env q w).1.state = q.state := by
  unfold scheduleTasksToRun
  split
  · rfl
  · split <;> rfl

@[simp] lemma scheduleTasksToRun_fst_maxTasksPerIteration (env : Env) (q : IdleQ) (w : World) :
    (scheduleTasksToRun env q w).1.maxTasksPerIteration = q.maxTasksPerIteration := by
  unfold scheduleTasksToRun
  split
  · rfl
  · split <;> rfl

@[simp] lemma scheduleTasksToRun_fst_ensureTasksRun (env : Env) (q : IdleQ) (w : World) :
    (scheduleTasksToRun env q w).1.ensureTasksRun = q.ensureTasksRun := by
  unfold scheduleTasksToRun
  split
  · rfl
  · split <;> rfl

@[simp] lemma scheduleTasksToRun_fst_defaultMinTaskTime (env : Env) (q : IdleQ) (w : World) :
    (scheduleTasksToRun env q w).1.defaultMinTaskTime = q.defaultMinTaskTime := by
  unfold scheduleTasksToRun
  split
  · rfl
  · split <;> rfl

@[simp] lemma applyEnqOp_taskQueue (p : Env × EnqOp) (s : IdleQ × World) :
    (applyEnqOp p s).1.taskQueue =
      match p.2 with
      | .push t m => s.1.taskQueue ++
          [⟨⟨p.1.time, if p.1.isBrowser then p.1.visibilityState else .visible⟩,
            t, max 0 (jsOr m s.1.defaultMinTaskTime)⟩]
      | .unshift t m =>
          ⟨⟨p.1.time, if p.1.isBrowser then p.1.visibilityState else .visible⟩,
            t, max 0 (jsOr m s.1.defaultMinTaskTime)⟩ :: s.1.taskQueue := by
  match p with
  | (env, .push t m) => simp [applyEnqOp, pushTask, handleTask]
  | (env, .unshift t m) => simp [applyEnqOp, unshiftTask, handleTask]

@[simp] lemma applyEnqOp_isProcessing (p : Env × EnqOp) (s : IdleQ × World) :
    (applyEnqOp p s).1.isProcessing = s.1.isProcessing := by
  match p with
  | (env, .push t m) => simp [applyEnqOp, pushTask, handleTask]
  | (env, .unshift t m) => simp [applyEnqOp, unshiftTask, handleTask]

@[simp] lemma applyEnqOp_state (p : Env × EnqOp) (s : IdleQ × World) :
    (applyEnqOp p s).1.state = s.1.state := by
  match p with
  | (env, .push t m) => simp [applyEnqOp, pushTask, handleTask]
  | (env, .unshift t m) => simp [applyEnqOp, unshiftTask, handleTask]

@[simp] lemma applyEnqOp_maxTasksPerIteration (p : Env × EnqOp) (s : IdleQ × World) :
    (applyEnqOp p s).1.maxTasksPerIteration = s.1.maxTasksPerIteration := by
  match p with
  | (env, .push t m) => simp [applyEnqOp, pushTask, handleTask]
  | (env, .unshift t m) => simp [applyEnqOp, unshiftTask, handleTask]

@[simp] lemma applyEnqOp_ensureTasksRun (p : Env × EnqOp) (s : IdleQ × World) :
    (applyEnqOp p s).1.ensureTasksRun = s.1.ensureTasksRun := by
  match p with
  | (env, .push t m) => simp [applyEnqOp, pushTask, handleTask]
  | (env, .unshift t m) => simp [applyEnqOp, unshiftTask, handleTask]

@[simp] lemma applyEnqOp_defaultMinTaskTime (p : Env × EnqOp) (s : IdleQ × World) :
    (applyEnqOp p s).1.defaultMinTaskTime = s.1.defaultMinTaskTime := by
  match p with
  | (env, .push t m) => simp [applyEnqOp, pushTask, handleTask]
  | (env, .unshift t m) => simp [applyEnqOp, unshiftTask, handleTask]

lemma applyEnqOps_isProcessing (ops : List (Env × EnqOp)) :
    ∀ s : IdleQ × World, (applyEnqOps ops s).1.isProcessing = s.1.isProcessing := by
  induction ops with
  | nil => intro s; rfl
  | cons p ops ih => intro s; rw [applyEnqOps, ih]; simp

lemma applyEnqOps_state (ops : List (Env × EnqOp)) :
    ∀ s : IdleQ × World, (applyEnqOps ops s).1.state = s.1.state := by
  induction ops with
  | nil => intro s; rfl
  | cons p ops ih => intro s; rw [applyEnqOps, ih]; simp

lemma applyEnqOps_maxTasksPerIteration (ops : List (Env × EnqOp)) :
    ∀ s : IdleQ × World,
      (applyEnqOps ops s).1.maxTasksPerIteration = s.1.maxTasksPerIteration := by
  induction ops with
  | nil => intro s; rfl
  | cons p ops ih => intro s; rw [applyEnqOps, ih]; simp

lemma applyEnqOps_ensureTasksRun (ops : List (Env × EnqOp)) :
    ∀ s : IdleQ × World, (applyEnqOps ops s).1.ensureTasksRun = s.1.ensureTasksRun := by
  induction ops with
  | nil => intro s; rfl
  | cons p ops ih => intro s; rw [applyEnqOps, ih]; simp

/-- The queue contents after any sequence of enqueue operations: every
unshifted task sits in front of the starting queue (in reverse unshift
order), every pushed task is appended behind it (in push order). -/
lemma applyEnqOps_taskQueue_map (ops : List (Env × EnqOp)) :
    ∀ s : IdleQ × World,
      (applyEnqOps ops s).1.taskQueue.map (fun it => it.task)
        = (unshiftedTasks ops).reverse
            ++ s.1.taskQueue.map (fun it => it.task) ++ pushedTasks ops := by
  induction ops with
  | nil => intro s; simp [applyEnqOps, unshiftedTasks, pushedTasks]
  | cons p ops ih =>
    intro s
    match p with
    | (env, .push t m) =>
      rw [applyEnqOps, ih]
      simp [unshiftedTasks, pushedTasks]
    | (env, .unshift t m) =>
      rw [applyEnqOps, ih]
      simp [unshiftedTasks, pushedTasks]

/-- With no deadline object the loop takes exactly the first
`maxT - processed` items, in queue order. -/
lemma runTasksLoop_none_log (exec : Task → State → Option String) (maxT : Nat) :
    ∀ (items : List TaskQueueItem) (processed : Nat) (s : Option State),
      (runTasksLoop exec none maxT processed s items).log.map (fun rec => rec.item)
        = items.take (maxT - processed) := by
  intro items
  induction items with
  | nil => intro processed s; simp [runTasksLoop]
  | cons item rest ih =>
    intro processed s
    rw [runTasksLoop]
    by_cases h : processed < maxT
    · have hsub : maxT - processed = (maxT - (processed + 1)) + 1 := by omega
      simp [h, shouldYield, ih, hsub]
    · have hsub : maxT - processed = 0 := by omega
      simp [h, hsub]

/-- With no deadline object the loop leaves exactly the items past the
iteration cap in the queue. -/
lemma runTasksLoop_none_remaining (exec : Task → State → Option String) (maxT : Nat) :
    ∀ (items : List TaskQueueItem) (processed : Nat) (s : Option State),
      (runTasksLoop exec none maxT processed s items).remaining
        = items.drop (maxT - processed) := by
  intro items
  induction items with
  | nil => intro processed s; simp [runTasksLoop]
  | cons item rest ih =>
    intro processed s
    rw [runTasksLoop]
    by_cases h : processed < maxT
    · have hsub : maxT - processed = (maxT - (processed + 1)) + 1 := by omega
      simp [h, shouldYield, ih, hsub]
    · have hsub : maxT - processed = 0 := by omega
      simp [h, hsub]

/-- The errors the loop reports are exactly the errors thrown by the task
invocations it performed, in order: every thrown error is caught and
logged, none propagates out of the loop. -/
lemma runTasksLoop_errors (exec : Task → State → Option String)
    (deadline : Option (Nat → Int)) (maxT : Nat) :
    ∀ (items : List TaskQueueItem) (processed : Nat) (s : Option State),
      (runTasksLoop exec deadline maxT processed s items).errors
        = ((runTasksLoop exec deadline maxT processed s items).log.map
            (fun rec => rec.item)).filterMap (fun it => exec it.task it.state) := by
  intro items
  induction items with
  | nil => intro processed s; simp [runTasksLoop]
  | cons item rest ih =>
    intro processed s
    rw [runTasksLoop]
    split
    · cases herr : exec item.task item.state <;>
        simp [herr, ih, Option.toList]
    · simp

/-- Starting from a cleared `state` field, the `state` field is cleared
after the loop and around every invocation: it is `none` at every
loop-condition check, holds exactly the executing item's enqueue-time
`State` while its task runs, and is reset to `none` immediately after. -/
lemma runTasksLoop_states (exec : Task → State → Option String)
    (deadline : Option (Nat → Int)) (maxT : Nat) :
    ∀ (items : List TaskQueueItem) (processed : Nat),
      (runTasksLoop exec deadline maxT processed none items).finalState = none
      ∧ ∀ rec ∈ (runTasksLoop exec deadline maxT processed none items).log,
          rec.stateBeforeInvoke = none
          ∧ rec.stateDuringRun = some rec.item.state
          ∧ rec.stateAfterRun = none := by
  intro items
  induction items with
  | nil => intro processed; simp [runTasksLoop]
  | cons item rest ih =>
    intro processed
    rw [runTasksLoop]
    split
    · refine ⟨(ih (processed + 1)).1, ?_⟩
      intro rec hrec
      simp only [List.mem_cons] at hrec
      cases hrec with
      | inl h => subst h; exact ⟨rfl, rfl, rfl⟩
      | inr h => exact (ih (processed + 1)).2 rec h
    · simp

/-- `runTasks` with no deadline and no drain already in progress: it
executes the first `maxTasksPerIteration` queued items in order, leaves
the rest queued, and logs exactly the errors its task invocations threw. -/
lemma runTasks_none_spec (env : Env) (exec : Task → State → Option String)
    (q : IdleQ) (w : World) (hp : q.isProcessing = false) :
    (runTasks env exec none q w).log.map (fun rec => rec.item)
        = q.taskQueue.take q.maxTasksPerIteration
    ∧ (runTasks env exec none q w).queue.taskQueue
        = q.taskQueue.drop q.maxTasksPerIteration
    ∧ (runTasks env exec none q w).errors
        = (q.taskQueue.take q.maxTasksPerIteration).filterMap
            (fun it => exec it.task it.state) := by
  unfold runTasks
  simp only [cancelScheduledRun_fst, hp, Bool.not_false, if_true]
  have hlog := runTasksLoop_none_log exec q.maxTasksPerIteration q.taskQueue 0 q.state
  have hrem := runTasksLoop_none_remaining exec q.maxTasksPerIteration q.taskQueue 0 q.state
  have herr := runTasksLoop_errors exec none q.maxTasksPerIteration q.taskQueue 0 q.state
  simp only [Nat.sub_zero] at hlog hrem
  split
  · simp [hlog, hrem, herr]
  · simp [hlog, hrem, herr]

/-- `runTasks` never leaves a `State` in the `state` field: if it was
`null` on entry it is `null` again when the call returns, whatever the
deadline and however the task bodies behaved. -/
lemma runTasks_state_none (env : Env) (exec : Task → State → Option String)
    (deadline : Option (Nat → Int)) (q : IdleQ) (w : World) (h : q.state = none) :
    (runTasks env exec deadline q w).queue.state = none := by
  unfold runTasks
  simp only [cancelScheduledRun_fst]
  split
  · have := (runTasksLoop_states exec deadline q.maxTasksPerIteration q.taskQueue 0).1
    split
    · simp [h, this]
    · simp [h, this]
  · simp [h]

/-! ## Scheduling-request accounting (claim C6) -/

/-- An enqueue operation takes the microtask path exactly when the
environment reports a browser whose document is hidden and the queue was
configured with `ensureTasksRun`. -/
def hiddenPathOp (ensureTasksRun : Bool) (p : Env × EnqOp) : Bool :=
  p.1.isBrowser && ensureTasksRun && (p.1.visibilityState == .hidden)

/-- Invariant tying the `idleCallbackHandle` field to the outstanding
`requestIdleCallback` registrations: either no handle is held and none is
outstanding, or exactly the held (non-zero) handle is outstanding. -/
def idleReqInvariant (q : IdleQ) (w : World) : Prop :=
  0 < w.nextHandle
  ∧ ((q.idleCallbackHandle = none ∧ w.outstandingIdleCallbacks = [])
    ∨ (∃ h, q.idleCallbackHandle = some h ∧ h ≠ 0
        ∧ w.outstandingIdleCallbacks = [h]))

lemma scheduleTasksToRun_idleReqInvariant (env : Env) (q : IdleQ) (w : World)
    (hinv : idleReqInvariant q w) :
    idleReqInvariant (scheduleTasksToRun env q w).1 (scheduleTasksToRun env q w).2 := by
  obtain ⟨hnext, hcases⟩ := hinv
  unfold scheduleTasksToRun
  split
  · exact ⟨hnext, by simpa using hcases⟩
  · split
    · exact ⟨hnext, by simpa using hcases⟩
    · rename_i hfalsy
      cases hcases with
      | inl hnone =>
        refine ⟨by simp [rIC]; omega, Or.inr ⟨w.nextHandle, ?_, ?_, ?_⟩⟩
        · simp [rIC]
        · omega
        · simp [rIC, hnone.2]
      | inr hsome =>
        obtain ⟨h, hh, hz, _⟩ := hsome
        rw [hh] at hfalsy
        simp [jsTruthy, hz] at hfalsy

lemma applyEnqOp_idleReqInvariant (p : Env × EnqOp) (s : IdleQ × World)
    (hinv : idleReqInvariant s.1 s.2) :
    idleReqInvariant (applyEnqOp p s).1 (applyEnqOp p s).2 := by
  match p with
  | (env, .push t m) =>
    have : idleReqInvariant
        { s.1 with taskQueue := s.1.taskQueue ++
          [⟨⟨env.time, if env.isBrowser then env.visibilityState else .visible⟩,
            t, max 0 (jsOr m s.1.defaultMinTaskTime)⟩] } s.2 := by
      obtain ⟨hnext, hcases⟩ := hinv
      exact ⟨hnext, by simpa using hcases⟩
    exact scheduleTasksToRun_idleReqInvariant env _ s.2 this
  | (env, .unshift t m) =>
    have : idleReqInvariant
        { s.1 with taskQueue :=
          ⟨⟨env.time, if env.isBrowser then env.visibilityState else .visible⟩,
            t, max 0 (jsOr m s.1.defaultMinTaskTime)⟩ :: s.1.taskQueue } s.2 := by
      obtain ⟨hnext, hcases⟩ := hinv
      exact ⟨hnext, by simpa using hcases⟩
    exact scheduleTasksToRun_idleReqInvariant env _ s.2 this

lemma applyEnqOps_idleReqInvariant (ops : List (Env × EnqOp)) :
    ∀ s : IdleQ × World, idleReqInvariant s.1 s.2 →
      idleReqInvariant (applyEnqOps ops s).1 (applyEnqOps ops s).2 := by
  induction ops with
  | nil => intro s h; exact h
  | cons p ops ih =>
    intro s h
    exact ih (applyEnqOp p s) (applyEnqOp_idleReqInvariant p s h)

lemma scheduleTasksToRun_microtasks (env : Env) (q : IdleQ) (w : World) :
    (scheduleTasksToRun env q w).2.queuedMicrotasks
      = w.queuedMicrotasks
        + (if env.isBrowser && q.ensureTasksRun && (env.visibilityState == .hidden)
            then 1 else 0) := by
  unfold scheduleTasksToRun
  split
  · rename_i hcond; simp [hcond]
  · rename_i hcond
    split <;> simp [rIC, hcond]

lemma applyEnqOp_microtasks (p : Env × EnqOp) (s : IdleQ × World) :
    (applyEnqOp p s).2.queuedMicrotasks
      = s.2.queuedMicrotasks
        + (if hiddenPathOp s.1.ensureTasksRun p then 1 else 0) := by
  match p with
  | (env, .push t m) =>
    simp [applyEnqOp, pushTask, handleTask, scheduleTasksToRun_microtasks, hiddenPathOp]
  | (env, .unshift t m) =>
    simp [applyEnqOp, unshiftTask, handleTask, scheduleTasksToRun_microtasks, hiddenPathOp]

lemma applyEnqOps_microtasks (ops : List (Env × EnqOp)) :
    ∀ s : IdleQ × World,
      (applyEnqOps ops s).2.queuedMicrotasks
        = s.2.queuedMicrotasks + ops.countP (hiddenPathOp s.1.ensureTasksRun) := by
  induction ops with
  | nil => intro s; simp [applyEnqOps]
  | cons p ops ih =>
    intro s
    rw [applyEnqOps, ih, applyEnqOp_microtasks]
    have hens : (applyEnqOp p s).1.ensureTasksRun = s.1.ensureTasksRun := by simp
    rw [hens, List.countP_cons]
    omega

/-! ## Claim theorems -/

/-- C2: `shouldYield(deadline, minTaskTime)` is true exactly when a
deadline object is present and its remaining time is at most the item's
`minTaskTime` (an absent `minTaskTime` counts as 0); consequently a drain
whose deadline reports 5 ms remaining does not start a front task whose
`minTaskTime` is 10 — the loop executes nothing and the queue is left
unchanged. -/
theorem claimC2_shouldYield :
    (∀ (d m : Option Int), shouldYield d m = true ↔ ∃ t, d = some t ∧ t ≤ m.getD 0)
    ∧ (∀ (exec : Task → State → Option String) (maxT : Nat)
        (item : TaskQueueItem) (rest : List TaskQueueItem),
        item.minTaskTime = 10 →
        runTasksLoop exec (some (fun _ => 5)) maxT 0 none (item :: rest)
          = ⟨[], item :: rest, none, []⟩) := by
  constructor
  · intro d m
    cases d with
    | none => simp [shouldYield]
    | some t => simp [shouldYield, jsOr_zero_eq_getD]
  · intro exec maxT item rest hmin
    rw [runTasksLoop]
    have hy : shouldYield (some 5) (some item.minTaskTime) = true := by
      simp [shouldYield, jsOr, hmin]
    simp [hy]

/-- Concrete instance for C2: a single queued task with `minTaskTime = 10`
facing a deadline that reports 5 ms remaining is not started. -/
def c2exec : Task → State → Option String := fun _ _ => none

/-- A queue item with `minTaskTime = 10`, for the C2 witness. -/
def c2item : TaskQueueItem := ⟨⟨0, .visible⟩, 0, 10⟩

/-- Witness for C2 at a concrete input. -/
theorem claimC2_witness :
    runTasksLoop c2exec (some (fun _ => 5)) 20 0 none [c2item]
      = ⟨[], [c2item], none, []⟩ :=
  claimC2_shouldYield.2 c2exec 20 c2item [] rfl

/-- C8: the fallback `IdleDeadline`'s `timeRemaining()` is
`max(0, 50 - (now - deadlineStartedAt))`, hence never negative, and its
`didTimeout` getter always reports `false`. -/
theorem claimC8_deadlineShim :
    ∀ (deadlineStartedAt nowT : Int),
      IdleDeadlineShim.timeRemaining deadlineStartedAt nowT
          = max 0 (50 - (nowT - deadlineStartedAt))
        ∧ 0 ≤ IdleDeadlineShim.timeRemaining deadlineStartedAt nowT
        ∧ IdleDeadlineShim.didTimeout = false := by
  intro a b
  exact ⟨rfl, le_max_left 0 _, rfl⟩

/-- C10: both enqueue paths store
`minTaskTime = max(0, (options.minTaskTime || defaultMinTaskTime))`: the
stored value is never negative (even for a negative argument), and an
explicit `minTaskTime` of 0 is falsy in JS, so it is replaced by the
scheduler-wide `defaultMinTaskTime` exactly as an absent option is. -/
theorem claimC10_storedMinTaskTime :
    ∀ (env : Env) (q : IdleQ) (w : World) (task : Task) (opts : Option Int),
      ((pushTask env task opts q w).1.taskQueue.map (fun it => it.minTaskTime)
          = q.taskQueue.map (fun it => it.minTaskTime)
            ++ [max 0 (jsOr opts q.defaultMinTaskTime)])
      ∧ ((unshiftTask env task opts q w).1.taskQueue.map (fun it => it.minTaskTime)
          = max 0 (jsOr opts q.defaultMinTaskTime)
            :: q.taskQueue.map (fun it => it.minTaskTime))
      ∧ 0 ≤ max 0 (jsOr opts q.defaultMinTaskTime)
      ∧ jsOr (some 0) q.defaultMinTaskTime = jsOr none q.defaultMinTaskTime := by
  intro env q w task opts
  refine ⟨?_, ?_, le_max_left 0 _, by simp [jsOr]⟩
  · simp [pushTask, handleTask]
  · simp [unshiftTask, handleTask]

/-- A non-browser environment (enqueue-time `State` then reports
`visible`), used as a neutral host for concrete scenarios. -/
def envPlain : Env := ⟨false, false, .visible, 0⟩

/-- A hidden browser document, the environment of the microtask path. -/
def envHidden : Env := ⟨true, false, .hidden, 0⟩

/-- An oracle under which every task body returns normally. -/
def execOk : Task → State → Option String := fun _ _ => none

/-- C1 counterexample: on an empty queue, `unshiftTask 0` then
`unshiftTask 1` stores the queue `[1, 0]` and a drain executes task 1
before task 0 — the later-unshifted item is placed *before*, not after,
the previously unshifted one, refuting "prepend is FIFO among prepends". -/
theorem claimC1_counterexample :
    ((applyEnqOps [(envPlain, .unshift 0 none), (envPlain, .unshift 1 none)]
        (IdleQueue.new false 0 20, World.init)).1.taskQueue.map (fun it => it.task)
      = [1, 0])
    ∧ ((runTasks envPlain execOk none
        (applyEnqOps [(envPlain, .unshift 0 none), (envPlain, .unshift 1 none)]
          (IdleQueue.new false 0 20, World.init)).1 World.init).log.map
          (fun rec => rec.item.task) = [1, 0])
    ∧ [1, 0] ≠ ([0, 1] : List Task) := by
  refine ⟨by decide, by decide, by decide⟩

/-- C1 (amended): after any sequence of enqueue operations on a fresh
queue, every unshifted task is placed before all pushed tasks, the pushed
tasks keep their push order, and the unshifted tasks among themselves
appear in *reverse* unshift order (prepend is LIFO among prepends); a
drain with no deadline then executes the queue front-first in exactly that
order, truncated at the iteration cap. -/
theorem claimC1_amended (ops : List (Env × EnqOp)) (ensure : Bool) (dflt : Int)
    (maxT : Nat) (exec : Task → State → Option String) :
    ((applyEnqOps ops (IdleQueue.new ensure dflt maxT, World.init)).1.taskQueue.map
        (fun it => it.task)
      = (unshiftedTasks ops).reverse ++ pushedTasks ops)
    ∧ ((runTasksLoop exec none maxT 0 none
          (applyEnqOps ops (IdleQueue.new ensure dflt maxT, World.init)).1.taskQueue).log.map
          (fun rec => rec.item.task)
        = ((unshiftedTasks ops).reverse ++ pushedTasks ops).take maxT) := by
  have hq := applyEnqOps_taskQueue_map ops (IdleQueue.new ensure dflt maxT, World.init)
  simp only [IdleQueue.new_taskQueue, List.map_nil, List.append_nil, List.nil_append] at hq
  refine ⟨hq, ?_⟩
  have hlog := runTasksLoop_none_log exec maxT
    (applyEnqOps ops (IdleQueue.new ensure dflt maxT, World.init)).1.taskQueue 0 none
  simp only [Nat.sub_zero] at hlog
  calc (runTasksLoop exec none maxT 0 none
          (applyEnqOps ops (IdleQueue.new ensure dflt maxT, World.init)).1.taskQueue).log.map
          (fun rec => rec.item.task)
      = ((runTasksLoop exec none maxT 0 none
          (applyEnqOps ops (IdleQueue.new ensure dflt maxT, World.init)).1.taskQueue).log.map
          (fun rec => rec.item)).map (fun it => it.task) := by
        rw [List.map_map]; rfl
    _ = ((applyEnqOps ops (IdleQueue.new ensure dflt maxT, World.init)).1.taskQueue.take
          maxT).map (fun it => it.task) := by rw [hlog]
    _ = ((applyEnqOps ops (IdleQueue.new ensure dflt maxT, World.init)).1.taskQueue.map
          (fun it => it.task)).take maxT := by rw [List.map_take]
    _ = ((unshiftedTasks ops).reverse ++ pushedTasks ops).take maxT := by rw [hq]

/-- C3: with no deadline object and a queue longer than
`maxTasksPerIteration`, one `runTasks` invocation executes at most
`maxTasksPerIteration` tasks and leaves exactly the remainder queued. -/
theorem claimC3_iterationCap (env : Env) (exec : Task → State → Option String)
    (q : IdleQ) (w : World) (hp : q.isProcessing = false)
    (hlen : q.maxTasksPerIteration < q.taskQueue.length) :
    (runTasks env exec none q w).log.length ≤ q.maxTasksPerIteration
    ∧ (runTasks env exec none q w).queue.taskQueue
        = q.taskQueue.drop q.maxTasksPerIteration := by
  obtain ⟨hlog, hrem, -⟩ := runTasks_none_spec env exec q w hp
  constructor
  · have h := congrArg List.length hlog
    rw [List.length_map, List.length_take] at h
    rw [h]
    exact Nat.min_le_left _ _
  · exact hrem

/-- A queue capped at one task per iteration holding two tasks. -/
def c3q : IdleQ :=
  { IdleQueue.new false 0 1 with
    taskQueue := [⟨⟨0, .visible⟩, 0, 0⟩, ⟨⟨0, .visible⟩, 1, 0⟩] }

/-- Witness for C3: of two queued tasks with cap 1, one drain invocation
runs at most one and leaves the second queued. -/
theorem claimC3_witness :
    (runTasks envPlain execOk none c3q World.init).log.length ≤ 1
    ∧ (runTasks envPlain execOk none c3q World.init).queue.taskQueue
        = c3q.taskQueue.drop 1 :=
  claimC3_iterationCap envPlain execOk c3q World.init rfl (by decide)

/-- C4: in a three-task queue whose middle task throws, a drain with no
deadline invokes all three tasks once each in order, ends with an empty
queue (the third task is not discarded), and the thrown error is caught
and reported in the error log instead of escaping `runTasks`. -/
theorem claimC4_isolation (env : Env) (exec : Task → State → Option String)
    (i1 i2 i3 : TaskQueueItem) (e : String) (q : IdleQ) (w : World)
    (hq : q.taskQueue = [i1, i2, i3]) (hp : q.isProcessing = false)
    (hmax : 3 ≤ q.maxTasksPerIteration)
    (h1 : exec i1.task i1.state = none) (h2 : exec i2.task i2.state = some e)
    (h3 : exec i3.task i3.state = none) :
    (runTasks env exec none q w).log.map (fun rec => rec.item) = [i1, i2, i3]
    ∧ (runTasks env exec none q w).queue.taskQueue = []
    ∧ (runTasks env exec none q w).errors = [e] := by
  obtain ⟨hlog, hrem, herr⟩ := runTasks_none_spec env exec q w hp
  rw [hq] at hlog hrem herr
  have hlen3 : ([i1, i2, i3] : List TaskQueueItem).length ≤ q.maxTasksPerIteration := by
    simpa using hmax
  have htake : ([i1, i2, i3] : List TaskQueueItem).take q.maxTasksPerIteration
      = [i1, i2, i3] := List.take_of_length_le hlen3
  have hdrop : ([i1, i2, i3] : List TaskQueueItem).drop q.maxTasksPerIteration
      = [] := List.drop_eq_nil_of_le hlen3
  refine ⟨by rw [hlog, htake], by rw [hrem, hdrop], ?_⟩
  rw [herr, htake]
  simp [h1, h2, h3]

/-- An oracle under which only task body 1 throws. -/
def c4exec : Task → State → Option String :=
  fun t _ => if t == 1 then some "boom" else none

/-- First task of the C4 witness queue. -/
def c4i1 : TaskQueueItem := ⟨⟨0, .visible⟩, 0, 0⟩

/-- Second (throwing) task of the C4 witness queue. -/
def c4i2 : TaskQueueItem := ⟨⟨0, .visible⟩, 1, 0⟩

/-- Third task of the C4 witness queue. -/
def c4i3 : TaskQueueItem := ⟨⟨0, .visible⟩, 2, 0⟩

/-- The C4 witness queue: three tasks, the middle one throws. -/
def c4q : IdleQ := { IdleQueue.new false 0 20 with taskQueue := [c4i1, c4i2, c4i3] }

/-- Witness for C4 at a concrete three-task queue. -/
theorem claimC4_witness :
    (runTasks envPlain c4exec none c4q World.init).log.map (fun rec => rec.item)
        = [c4i1, c4i2, c4i3]
    ∧ (runTasks envPlain c4exec none c4q World.init).queue.taskQueue = []
    ∧ (runTasks envPlain c4exec none c4q World.init).errors = ["boom"] :=
  claimC4_isolation envPlain c4exec c4i1 c4i2 c4i3 "boom" c4q World.init
    rfl rfl (by decide) rfl rfl rfl

lemma unshiftedTasks_of_pushes (env : Env) (pushes : List (Task × Option Int)) :
    unshiftedTasks (pushes.map (fun p => (env, EnqOp.push p.1 p.2))) = [] := by
  induction pushes with
  | nil => rfl
  | cons p ps ih => simpa [unshiftedTasks] using ih

lemma pushedTasks_of_pushes (env : Env) (pushes : List (Task × Option Int)) :
    pushedTasks (pushes.map (fun p => (env, EnqOp.push p.1 p.2)))
      = pushes.map (fun p => p.1) := by
  induction pushes with
  | nil => rfl
  | cons p ps ih => simpa [pushedTasks] using ih

/-- C5: enqueue N tasks through `pushTask` only, with N within the
iteration cap; `runTasksImmediately()` then leaves `hasPendingTasks()`
false and has invoked exactly the N task bodies, once each, in push
order. -/
theorem claimC5_runTasksImmediately (env : Env) (exec : Task → State → Option String)
    (ensure : Bool) (dflt : Int) (maxT : Nat) (pushes : List (Task × Option Int))
    (s : IdleQ × World)
    (hs : s = applyEnqOps (pushes.map (fun p => (env, EnqOp.push p.1 p.2)))
        (IdleQueue.new ensure dflt maxT, World.init))
    (hlen : pushes.length ≤ maxT) :
    hasPendingTasks (runTasksImmediately env exec s.1 s.2).queue = false
    ∧ (runTasksImmediately env exec s.1 s.2).log.map (fun rec => rec.item.task)
        = pushes.map (fun p => p.1) := by
  have hqmap : s.1.taskQueue.map (fun it => it.task) = pushes.map (fun p => p.1) := by
    rw [hs]
    have hq := applyEnqOps_taskQueue_map
      (pushes.map (fun p => (env, EnqOp.push p.1 p.2)))
      (IdleQueue.new ensure dflt maxT, World.init)
    simpa [unshiftedTasks_of_pushes, pushedTasks_of_pushes] using hq
  have hproc : s.1.isProcessing = false := by
    rw [hs]
    exact applyEnqOps_isProcessing _ _
  have hmax : s.1.maxTasksPerIteration = maxT := by
    rw [hs]
    exact applyEnqOps_maxTasksPerIteration _ _
  have hqlen : s.1.taskQueue.length ≤ s.1.maxTasksPerIteration := by
    have := congrArg List.length hqmap
    rw [List.length_map, List.length_map] at this
    rw [this, hmax]
    exact hlen
  obtain ⟨hlog, hrem, -⟩ := runTasks_none_spec env exec s.1 s.2 hproc
  have htake : s.1.taskQueue.take s.1.maxTasksPerIteration = s.1.taskQueue :=
    List.take_of_length_le hqlen
  have hdrop : s.1.taskQueue.drop s.1.maxTasksPerIteration = [] :=
    List.drop_eq_nil_of_le hqlen
  rw [htake] at hlog
  rw [hdrop] at hrem
  constructor
  · show hasPendingTasks (runTasks env exec none s.1 s.2).queue = false
    simp [hasPendingTasks, hrem]
  · show (runTasks env exec none s.1 s.2).log.map (fun rec => rec.item.task)
        = pushes.map (fun p => p.1)
    calc (runTasks env exec none s.1 s.2).log.map (fun rec => rec.item.task)
        = ((runTasks env exec none s.1 s.2).log.map (fun rec => rec.item)).map
            (fun it => it.task) := by rw [List.map_map]; rfl
      _ = s.1.taskQueue.map (fun it => it.task) := by rw [hlog]
      _ = pushes.map (fun p => p.1) := hqmap

/-- Witness for C5: two pushed tasks, cap 20. -/
theorem claimC5_witness :
    hasPendingTasks (runTasksImmediately envPlain execOk
        (applyEnqOps [(envPlain, EnqOp.push 5 none), (envPlain, EnqOp.push 7 (some 3))]
          (IdleQueue.new false 0 20, World.init)).1
        (applyEnqOps [(envPlain, EnqOp.push 5 none), (envPlain, EnqOp.push 7 (some 3))]
          (IdleQueue.new false 0 20, World.init)).2).queue = false
    ∧ (runTasksImmediately envPlain execOk
        (applyEnqOps [(envPlain, EnqOp.push 5 none), (envPlain, EnqOp.push 7 (some 3))]
          (IdleQueue.new false 0 20, World.init)).1
        (applyEnqOps [(envPlain, EnqOp.push 5 none), (envPlain, EnqOp.push 7 (some 3))]
          (IdleQueue.new false 0 20, World.init)).2).log.map (fun rec => rec.item.task)
        = [5, 7] :=
  claimC5_runTasksImmediately envPlain execOk false 0 20 [(5, none), (7, some 3)]
    (applyEnqOps [(envPlain, EnqOp.push 5 none), (envPlain, EnqOp.push 7 (some 3))]
      (IdleQueue.new false 0 20, World.init)) rfl (by decide)

/-- C6 counterexample: with `ensureTasksRun` configured and the document
hidden, two consecutive `pushTask` calls queue two microtask callbacks —
the second is requested although the first is still outstanding, refuting
"at most one outstanding scheduling request, including the microtask
path". -/
theorem claimC6_counterexample :
    ((applyEnqOps [(envHidden, .push 0 none), (envHidden, .push 1 none)]
        (IdleQueue.new true 0 20, World.init)).2.queuedMicrotasks = 2)
    ∧ ¬((applyEnqOps [(envHidden, .push 0 none), (envHidden, .push 1 none)]
        (IdleQueue.new true 0 20, World.init)).2.queuedMicrotasks ≤ 1) := by
  exact ⟨by decide, by decide⟩

/-- C6 (amended): across any sequence of enqueue operations the
idle-callback path holds at most one outstanding `requestIdleCallback`
registration (a pending handle suppresses a second request), but the
microtask path has no such guard: every enqueue taken while the document
is hidden with `ensureTasksRun` configured queues one more microtask
callback. -/
theorem claimC6_amended (ops : List (Env × EnqOp)) (ensure : Bool) (dflt : Int)
    (maxT : Nat) :
    ((applyEnqOps ops
        (IdleQueue.new ensure dflt maxT, World.init)).2.outstandingIdleCallbacks.length ≤ 1)
    ∧ ((applyEnqOps ops (IdleQueue.new ensure dflt maxT, World.init)).2.queuedMicrotasks
        = ops.countP (hiddenPathOp ensure)) := by
  have hinv0 : idleReqInvariant (IdleQueue.new ensure dflt maxT) World.init :=
    ⟨by norm_num [World.init], Or.inl ⟨rfl, rfl⟩⟩
  have hinv := applyEnqOps_idleReqInvariant ops
    (IdleQueue.new ensure dflt maxT, World.init) hinv0
  constructor
  · rcases hinv.2 with ⟨-, hout⟩ | ⟨h, -, -, hout⟩ <;> simp [hout]
  · have hm := applyEnqOps_microtasks ops (IdleQueue.new ensure dflt maxT, World.init)
    simpa [World.init] using hm

/-- C7: the listeners left attached after constructing with
`ensureTasksRun` in a browser and then calling `destroy()`.  The
`visibilitychange` listener added by the constructor is the anonymous
arrow function, but `destroy()` passes `this.runTasksImmediately` to
`removeEventListener`, which matches nothing — so on both Safari and
non-Safari hosts the `visibilitychange` listener survives `destroy()`
(only Safari's `beforeunload` listener, registered with the same bound
method that `destroy()` passes, is actually removed). -/
theorem claimC7_destroyLeavesListener :
    (destroyListeners true false true (constructorListeners true false true [])
        = [(EvType.visibilitychange, ListenerFn.visibilityChangeArrow)])
    ∧ (destroyListeners true true true (constructorListeners true true true [])
        = [(EvType.visibilitychange, ListenerFn.visibilityChangeArrow)])
    ∧ constructorListeners true false true [] ≠ []
    ∧ destroyListeners true false true (constructorListeners true false true []) ≠ [] := by
  exact ⟨by decide, by decide, by decide, by decide⟩

/-- C9: `getState()` is null whenever no task body is mid-execution — on a
freshly constructed queue, at every loop-condition check between two task
invocations, right after each invocation (even a throwing one), and after
`runTasks` returns — and while a task body runs it is exactly the
`RunState` stamped on that task at enqueue time. -/
theorem claimC9_getState (exec : Task → State → Option String)
    (deadline : Option (Nat → Int)) (maxT : Nat) (items : List TaskQueueItem) :
    (runTasksLoop exec deadline maxT 0 none items).finalState = none
    ∧ (∀ rec ∈ (runTasksLoop exec deadline maxT 0 none items).log,
        rec.stateBeforeInvoke = none
        ∧ rec.stateDuringRun = some rec.item.state
        ∧ rec.stateAfterRun = none)
    ∧ (∀ (env : Env) (q : IdleQ) (w : World), q.state = none →
        getState (runTasks env exec deadline q w).queue = none)
    ∧ (∀ (ensure : Bool) (dflt : Int) (maxT2 : Nat),
        getState (IdleQueue.new ensure dflt maxT2) = none) := by
  refine ⟨(runTasksLoop_states exec deadline maxT items 0).1,
    (runTasksLoop_states exec deadline maxT items 0).2, ?_, fun _ _ _ => rfl⟩
  intro env q w h
  exact runTasks_state_none env exec deadline q w h

/-- An oracle under which every task body throws, for the C9 witness. -/
def c9exec : Task → State → Option String := fun _ _ => some "thrown"

/-- The single queued item of the C9 witness. -/
def c9item : TaskQueueItem := ⟨⟨0, .visible⟩, 0, 0⟩

/-- Witness for C9: a drain whose only task throws still ends with
`getState() = null`, and the record of that invocation shows the state
field was null before, the enqueue-time `RunState` during, and null after
the invocation. -/
theorem claimC9_witness :
    getState (runTasks envPlain c9exec none (IdleQueue.new false 0 20)
        World.init).queue = none
    ∧ ((⟨none, c9item, some c9item.state, none⟩ : ExecRecord).stateBeforeInvoke = none
        ∧ (⟨none, c9item, some c9item.state, none⟩ : ExecRecord).stateDuringRun
            = some c9item.state
        ∧ (⟨none, c9item, some c9item.state, none⟩ : ExecRecord).stateAfterRun = none) := by
  constructor
  · exact (claimC9_getState c9exec none 20 []).2.2.1 envPlain
      (IdleQueue.new false 0 20) World.init rfl
  · exact (claimC9_getState c9exec none 20 [c9item]).2.1
      ⟨none, c9item, some c9item.state, none⟩ (by decide)

end IdleUntilUrgent
